import Mathlib

/-!
Verification of the ESP (Encapsulating Security Payload) datagram engine
(`esp_packet.c`): the encrypt/decrypt pipelines, RFC 4303 padding codec,
datagram layout and the anti-replay interaction.  Bytes are modelled as
natural numbers (values below 256 on the wire), byte buffers as lists.
Collaborators that live outside the provided sources (the anti-replay
window of `esp_context`, `ip_packet`) are modelled from the specification.
-/

/-- Status codes returned by the pipelines (libstrongswan `status_t`,
restricted to the values the ESP engine uses). -/
inductive Status where
  | SUCCESS
  | PARSE_ERROR
  | VERIFY_ERROR
  | FAILED
  | NOT_FOUND
deriving DecidableEq, Repr

/-- Modelled from the spec: an inner IP packet is carried as its byte
encoding (`encoding() → bytes`); the constructor validates the first
nibble. -/
structure IpPacket where
  bytes : List Nat
deriving DecidableEq, Repr

/-- Modelled from the spec: the inner IP version is the first nibble of the
first byte (`version() → 4|6`). -/
def IpPacket.version (p : IpPacket) : Nat :=
  p.bytes.headD 0 / 16

/-- Modelled from the spec: `ip_packet_create` builds an inner IP packet
from bytes, validating that the first nibble is 4 (IPv4) or 6 (IPv6);
anything else is rejected. -/
def ip_packet_create (data : List Nat) : Option IpPacket :=
  match data with
  | [] => none
  | b :: _ => if b / 16 = 4 ∨ b / 16 = 6 then some ⟨data⟩ else none

/-- Modelled from the spec: the per-SA anti-replay window, `highest` plus a
bitmap where index `i` holds the bit for sequence number `highest - i`. -/
structure ReplayWindow where
  highest : Nat
  bitmap : List Bool
deriving DecidableEq, Repr

/-- Modelled from the spec: `check(seq)` returns true iff `seq ≠ 0` and
(`seq > highest` or (`highest − seq < W` and the bit for `seq` is clear)).
It does not mutate state.  This is `verify_seqno` of `esp_context`. -/
def ReplayWindow.check (w : ReplayWindow) (seq : Nat) : Bool :=
  decide (seq ≠ 0) &&
    (decide (w.highest < seq) ||
      (decide (w.highest - seq < w.bitmap.length) &&
        !(w.bitmap.getD (w.highest - seq) false)))

/-- Modelled from the spec: `commit(seq)` — if `seq > highest` shift the
bitmap (new positions cleared), set the bit for the new highest and update
`highest`; otherwise set the bit at position `highest − seq`.  This is
`set_authenticated_seqno` of `esp_context`. -/
def ReplayWindow.commit (w : ReplayWindow) (seq : Nat) : ReplayWindow :=
  if w.highest < seq then
    { highest := seq,
      bitmap :=
        ((List.replicate (seq - w.highest) false ++ w.bitmap).take
          w.bitmap.length).set 0 true }
  else
    { w with bitmap := w.bitmap.set (w.highest - seq) true }

/-- The encryption primitive handle (`crypter_t`): block size, IV size and
the fallible encrypt/decrypt operations (data, then IV). -/
structure Crypter where
  block_size : Nat
  iv_size : Nat
  enc : List Nat → List Nat → Option (List Nat)
  dec : List Nat → List Nat → Option (List Nat)

/-- The MAC primitive handle (`signer_t`): ICV size (the signer's "block
size" in the source) and the fallible MAC computation over a byte string.
The source streams header, IV and ciphertext through `get_signature` /
`verify_signature`; that is the MAC over their concatenation. -/
structure Signer where
  icv_size : Nat
  sign : List Nat → Option (List Nat)

/-- The unidirectional SA context (`esp_context_t`): primitives, an
optional RNG (`none` models `create_rng` finding no RNG), the egress
sequence cursor and the ingress anti-replay window. -/
structure EspContext where
  crypter : Crypter
  signer : Signer
  rng : Option (Nat → Option (List Nat))
  send_seqno : Nat
  window : ReplayWindow

/-- The packet container (`private_esp_packet_t`): raw bytes of the
underlying packet, the optionally decoded inner IP packet, and the
next-header byte. -/
structure EspPacket where
  packet_data : List Nat
  payload : Option IpPacket
  next_header : Nat
deriving DecidableEq, Repr

/-- Accessor `get_payload`: the decoded inner IP packet, if any. -/
def get_payload (p : EspPacket) : Option IpPacket :=
  p.payload

/-- Accessor `get_next_header`. -/
def get_next_header (p : EspPacket) : Nat :=
  p.next_header

/-- Constructor `esp_packet_create_from_payload`: empty raw buffer; the
next-header byte is IPPROTO_IPIP (4) for an IPv4 payload, IPPROTO_IPV6
(41) otherwise, and IPPROTO_NONE (59) without a payload. -/
def esp_packet_create_from_payload (ip : Option IpPacket) : EspPacket :=
  { packet_data := []
    payload := ip
    next_header :=
      match ip with
      | some q => if q.version = 4 then 4 else 41
      | none => 59 }

/-- Big-endian encoding of a 32-bit value into four bytes
(`write_uint32`). -/
def beBytes4 (x : Nat) : List Nat :=
  [x / 16777216 % 256, x / 65536 % 256, x / 256 % 256, x % 256]

/-- Big-endian decoding of four bytes (`read_uint32`). -/
def readBE32 (l : List Nat) : Nat :=
  l.foldl (fun a b => a * 256 + b) 0

/-- The byte of a buffer at an index (0 past the end); used to model the
reader's end reads. -/
def byte_at (l : List Nat) (i : Nat) : Nat :=
  (l.drop i).headD 0

/-- Padding check of `check_padding`, carrying the absolute start index:
byte `k` of the list must equal `(i + k + 1) mod 256`. -/
def check_padding_from : List Nat → Nat → Bool
  | [], _ => true
  | b :: rest, i => (b == (i + 1) % 256) && check_padding_from rest (i + 1)

/-- `check_padding` as specified in RFC 4303: the i-th pad byte (0-based)
equals `(i+1) mod 256`. -/
def check_padding (padding : List Nat) : Bool :=
  check_padding_from padding 0

/-- Padding bytes generated from absolute index `i`, `n` of them
(`generate_padding` writes `(u_int8_t)(i + 1)` at index `i`). -/
def generate_padding_from : Nat → Nat → List Nat
  | _, 0 => []
  | i, n + 1 => (i + 1) % 256 :: generate_padding_from (i + 1) n

/-- `generate_padding` as specified in RFC 4303. -/
def generate_padding (n : Nat) : List Nat :=
  generate_padding_from 0 n

/-- What the source does with the decrypted plaintext buffer when
`remove_padding` returns: released with `chunk_free` (freed, not
overwritten), left untouched (no release call at all), retained as the
payload, or overwritten before release (never produced by the source). -/
inductive PlainDisposition where
  | chunk_freed
  | untouched
  | retained
  | wiped
deriving DecidableEq, Repr

/-- `remove_padding`: read next-header and pad-length from the end, read
and check the pad bytes, then decode the leading slice as an inner IP
packet.  Returns the decoded payload with the next-header byte, paired
with the fate of the plaintext buffer on that path: the invalid-length and
invalid-padding failures run `chunk_free(&plaintext)`; the
unsupported-payload failure returns without touching the buffer. -/
def remove_padding (pt : List Nat) : Option (IpPacket × Nat) × PlainDisposition :=
  if pt.length < 2 then
    (none, PlainDisposition.chunk_freed)
  else
    let nh := byte_at pt (pt.length - 1)
    let pl := byte_at pt (pt.length - 2)
    if pt.length - 2 < pl then
      (none, PlainDisposition.chunk_freed)
    else if check_padding ((pt.take (pt.length - 2)).drop (pt.length - 2 - pl)) = false then
      (none, PlainDisposition.chunk_freed)
    else
      match ip_packet_create (pt.take (pt.length - 2 - pl)) with
      | none => (none, PlainDisposition.untouched)
      | some q => (some (q, nh), PlainDisposition.retained)

/-- The reads of `decrypt` on the raw datagram: SPI and sequence number
(4 bytes each, big-endian), `iv_len` bytes of IV, the ICV read from the
end, and the remainder as ciphertext, which must be a multiple of the
cipher block size (`reader->remaining % block_size` must be zero). -/
def parse_datagram (data : List Nat) (ivLen icvLen blockSize : Nat) :
    Option (Nat × Nat × List Nat × List Nat × List Nat) :=
  if 8 + ivLen + icvLen ≤ data.length ∧
      (data.length - (8 + ivLen + icvLen)) % blockSize = 0 then
    some (readBE32 (data.take 4),
          readBE32 ((data.drop 4).take 4),
          (data.drop 8).take ivLen,
          (data.drop (8 + ivLen)).take (data.length - (8 + ivLen + icvLen)),
          data.drop (data.length - icvLen))
  else
    none

/-- The `decrypt` pipeline.  Returns the status, the container, the
context (whose window `set_authenticated_seqno` may have updated), and,
when `remove_padding` ran, the fate of the plaintext buffer. -/
def decrypt (ctx : EspContext) (p : EspPacket) :
    Status × EspPacket × EspContext × Option PlainDisposition :=
  let p0 : EspPacket := { p with payload := none }
  match parse_datagram p.packet_data ctx.crypter.iv_size ctx.signer.icv_size
      ctx.crypter.block_size with
  | none => (Status.PARSE_ERROR, p0, ctx, none)
  | some (_spi, seq, iv, ciphertext, icv) =>
    if ctx.window.check seq = false then
      (Status.VERIFY_ERROR, p0, ctx, none)
    else
      match ctx.signer.sign (p.packet_data.take 8 ++ iv ++ ciphertext) with
      | none => (Status.FAILED, p0, ctx, none)
      | some tag =>
        if tag ≠ icv then
          (Status.FAILED, p0, ctx, none)
        else
          let ctx1 := { ctx with window := ctx.window.commit seq }
          match ctx.crypter.dec ciphertext iv with
          | none => (Status.FAILED, p0, ctx1, none)
          | some plaintext =>
            match remove_padding plaintext with
            | (none, d) => (Status.PARSE_ERROR, p0, ctx1, some d)
            | (some (q, nh), d) =>
              (Status.SUCCESS, { p0 with payload := some q, next_header := nh },
               ctx1, some d)

/-- Pad length computed by `encrypt`:
`block_size − ((payload_len + 2) mod block_size)`. -/
def esp_pad_length (payload_len block_size : Nat) : Nat :=
  block_size - ((payload_len + 2) % block_size)

/-- Byte encoding of the container's payload (`chunk_empty` without
one). -/
def esp_payload_bytes (p : EspPacket) : List Nat :=
  match p.payload with
  | some ip => ip.bytes
  | none => []

/-- The plaintext tail `encrypt` assembles: payload, self-describing pad
bytes, pad-length byte, next-header byte (each stored as a `u_int8_t`). -/
def esp_plaintext (p : EspPacket) (block_size : Nat) : List Nat :=
  let payload := esp_payload_bytes p
  let padLen := esp_pad_length payload.length block_size
  payload ++ generate_padding padLen ++ [padLen % 256, p.next_header % 256]

/-- The `encrypt` pipeline.  Clears the raw buffer first, obtains the next
sequence number (failing when the cursor cycled at `0xFFFFFFFF`, modelled
from the spec's cursor), requires an RNG, fills the IV from it, encrypts
the assembled plaintext in place and appends the MAC over
header‖IV‖ciphertext.  Returns status, container and updated context. -/
def encrypt (ctx : EspContext) (p : EspPacket) (spi : Nat) :
    Status × EspPacket × EspContext :=
  let p0 : EspPacket := { p with packet_data := [] }
  if ctx.send_seqno = 4294967295 then
    (Status.FAILED, p0, ctx)
  else
    let seq := ctx.send_seqno + 1
    let ctx1 := { ctx with send_seqno := seq }
    match ctx.rng with
    | none => (Status.NOT_FOUND, p0, ctx1)
    | some rng =>
      match rng ctx.crypter.iv_size with
      | none => (Status.FAILED, p0, ctx1)
      | some ivb =>
        let header := beBytes4 spi ++ beBytes4 seq
        match ctx.crypter.enc (esp_plaintext p ctx.crypter.block_size) ivb with
        | none => (Status.FAILED, p0, ctx1)
        | some ct =>
          match ctx.signer.sign (header ++ ivb ++ ct) with
          | none => (Status.FAILED, p0, ctx1)
          | some tag =>
            (Status.SUCCESS, { p0 with packet_data := header ++ ivb ++ ct ++ tag },
             ctx1)

/-! ### Basic lemmas about the byte codecs -/

theorem length_beBytes4 (x : Nat) : (beBytes4 x).length = 4 := rfl

theorem readBE32_beBytes4 (x : Nat) (h : x < 4294967296) :
    readBE32 (beBytes4 x) = x := by
  simp only [beBytes4, readBE32, List.foldl]
  omega

theorem take_append_of_le {n : Nat} (a b : List Nat) (h : n ≤ a.length) :
    (a ++ b).take n = a.take n := by
  rw [List.take_append_eq_append_take, Nat.sub_eq_zero_of_le h, List.take_zero,
    List.append_nil]

theorem drop_append_of_le {n : Nat} (a b : List Nat) (h : n ≤ a.length) :
    (a ++ b).drop n = a.drop n ++ b := by
  rw [List.drop_append_eq_append_drop, Nat.sub_eq_zero_of_le h, List.drop_zero]

theorem take_full {n : Nat} (a : List Nat) (h : a.length = n) : a.take n = a := by
  subst h; exact List.take_length a

theorem byte_at_append (a b : List Nat) {n : Nat} (h : a.length = n) :
    byte_at (a ++ b) n = b.headD 0 := by
  unfold byte_at
  rw [List.drop_left' h]

/-! ### Padding codec lemmas -/

theorem length_generate_padding_from (i n : Nat) :
    (generate_padding_from i n).length = n := by
  induction n generalizing i with
  | zero => rfl
  | succ m ih => simp [generate_padding_from, ih]

theorem length_generate_padding (n : Nat) : (generate_padding n).length = n :=
  length_generate_padding_from 0 n

theorem check_padding_from_generate (i n : Nat) :
    check_padding_from (generate_padding_from i n) i = true := by
  induction n generalizing i with
  | zero => rfl
  | succ m ih => simp [generate_padding_from, check_padding_from, ih]

theorem check_padding_generate (n : Nat) :
    check_padding (generate_padding n) = true :=
  check_padding_from_generate 0 n

theorem check_padding_from_false (l : List Nat) (s i : Nat) (hi : i < l.length)
    (hne : byte_at l i ≠ (s + i + 1) % 256) : check_padding_from l s = false := by
  induction l generalizing s i with
  | nil => simp at hi
  | cons b rest ih =>
    cases i with
    | zero =>
      have hb : b ≠ (s + 1) % 256 := by
        have hs : s + 0 + 1 = s + 1 := by omega
        rw [hs] at hne
        simpa [byte_at] using hne
      simp [check_padding_from, hb]
    | succ j =>
      have hrec : check_padding_from rest (s + 1) = false := by
        refine ih (s + 1) j (by simpa using hi) ?_
        have : byte_at (b :: rest) (j + 1) = byte_at rest j := rfl
        rw [this] at hne
        have harith : s + 1 + j + 1 = s + (j + 1) + 1 := by omega
        rw [harith]
        exact hne
      simp [check_padding_from, hrec]

theorem pad_law (payload_len bs : Nat) (hbs : 0 < bs) :
    1 ≤ esp_pad_length payload_len bs ∧ esp_pad_length payload_len bs ≤ bs ∧
      (payload_len + 2 + esp_pad_length payload_len bs) % bs = 0 := by
  have hmod : (payload_len + 2) % bs < bs := Nat.mod_lt _ hbs
  have hdm := Nat.div_add_mod (payload_len + 2) bs
  refine ⟨by unfold esp_pad_length; omega, by unfold esp_pad_length; omega, ?_⟩
  have heq : payload_len + 2 + esp_pad_length payload_len bs =
      bs * ((payload_len + 2) / bs) + bs := by
    unfold esp_pad_length
    omega
  rw [heq, ← Nat.mul_succ]
  exact Nat.mul_mod_right bs _

theorem esp_pad_length_le (payload_len bs : Nat) :
    esp_pad_length payload_len bs ≤ bs :=
  Nat.sub_le bs _

theorem esp_plaintext_length (p : EspPacket) (bs : Nat) :
    (esp_plaintext p bs).length =
      (esp_payload_bytes p).length + 2 +
        esp_pad_length (esp_payload_bytes p).length bs := by
  simp [esp_plaintext, length_generate_padding]
  omega

theorem esp_plaintext_mod (p : EspPacket) (bs : Nat) (hbs : 0 < bs) :
    (esp_plaintext p bs).length % bs = 0 := by
  rw [esp_plaintext_length]
  exact (pad_law (esp_payload_bytes p).length bs hbs).2.2


/-! ### Parsing a well-formed datagram -/

theorem parse_datagram_wellformed (hdr ivb ct tag : List Nat)
    (ivLen icvLen bs : Nat) (hh : hdr.length = 8) (hiv : ivb.length = ivLen)
    (htag : tag.length = icvLen) (hct : ct.length % bs = 0) :
    parse_datagram (hdr ++ ivb ++ ct ++ tag) ivLen icvLen bs =
      some (readBE32 (hdr.take 4), readBE32 ((hdr.drop 4).take 4), ivb, ct, tag) := by
  have hlen : (hdr ++ ivb ++ ct ++ tag).length = 8 + ivLen + ct.length + icvLen := by
    simp only [List.length_append, hh, hiv, htag]
  have hcond : 8 + ivLen + icvLen ≤ (hdr ++ ivb ++ ct ++ tag).length ∧
      ((hdr ++ ivb ++ ct ++ tag).length - (8 + ivLen + icvLen)) % bs = 0 := by
    refine ⟨by omega, ?_⟩
    have hn : (hdr ++ ivb ++ ct ++ tag).length - (8 + ivLen + icvLen) = ct.length := by
      omega
    rw [hn]
    exact hct
  have e1 : (hdr ++ ivb ++ ct ++ tag).take 4 = hdr.take 4 := by
    rw [take_append_of_le _ _ (by simp only [List.length_append, hh]; omega),
      take_append_of_le _ _ (by simp only [List.length_append, hh]; omega),
      take_append_of_le _ _ (by omega)]
  have e2 : ((hdr ++ ivb ++ ct ++ tag).drop 4).take 4 = (hdr.drop 4).take 4 := by
    rw [drop_append_of_le _ _ (by simp only [List.length_append, hh]; omega),
      drop_append_of_le _ _ (by simp only [List.length_append, hh]; omega),
      drop_append_of_le _ _ (by omega),
      take_append_of_le _ _ (by simp only [List.length_append, List.length_drop, hh]; omega),
      take_append_of_le _ _ (by simp only [List.length_append, List.length_drop, hh]; omega),
      take_append_of_le _ _ (by simp only [List.length_drop, hh]; omega)]
  have e3 : ((hdr ++ ivb ++ ct ++ tag).drop 8).take ivLen = ivb := by
    have hassoc : hdr ++ ivb ++ ct ++ tag = hdr ++ (ivb ++ ct ++ tag) := by
      simp [List.append_assoc]
    rw [hassoc, List.drop_left' hh,
      take_append_of_le _ _ (by simp only [List.length_append, hiv]; omega),
      take_append_of_le _ _ (by omega), take_full ivb hiv]
  have e4 : ((hdr ++ ivb ++ ct ++ tag).drop (8 + ivLen)).take
      ((hdr ++ ivb ++ ct ++ tag).length - (8 + ivLen + icvLen)) = ct := by
    have hassoc : hdr ++ ivb ++ ct ++ tag = (hdr ++ ivb) ++ (ct ++ tag) := by
      simp [List.append_assoc]
    rw [hassoc, List.drop_left' (by simp only [List.length_append, hh, hiv])]
    have hn : ((hdr ++ ivb) ++ (ct ++ tag)).length - (8 + ivLen + icvLen) = ct.length := by
      simp only [List.length_append, hh, hiv, htag]
      omega
    rw [hn]
    exact List.take_left' rfl
  have e5 : (hdr ++ ivb ++ ct ++ tag).drop
      ((hdr ++ ivb ++ ct ++ tag).length - icvLen) = tag := by
    have hn : (hdr ++ ivb ++ ct ++ tag).length - icvLen = (hdr ++ ivb ++ ct).length := by
      simp only [List.length_append, hh, hiv, htag]
      omega
    rw [hn]
    exact List.drop_left _ _
  unfold parse_datagram
  rw [if_pos hcond, e1, e2, e3, e4, e5]

/-! ### Removing the padding from a well-formed plaintext tail -/

theorem remove_padding_wellformed (payload : List Nat) (padLen nh : Nat)
    (q : IpPacket) (hcreate : ip_packet_create payload = some q) :
    remove_padding (payload ++ generate_padding padLen ++ [padLen, nh]) =
      (some (q, nh), PlainDisposition.retained) := by
  have hX : (payload ++ generate_padding padLen).length = payload.length + padLen := by
    simp only [List.length_append, length_generate_padding]
  have hlen : (payload ++ generate_padding padLen ++ [padLen, nh]).length =
      payload.length + padLen + 2 := by
    simp only [List.length_append, length_generate_padding, List.length_cons,
      List.length_nil]
  have hnh : byte_at (payload ++ generate_padding padLen ++ [padLen, nh])
      ((payload ++ generate_padding padLen ++ [padLen, nh]).length - 1) = nh := by
    have hassoc : payload ++ generate_padding padLen ++ [padLen, nh] =
        (payload ++ generate_padding padLen ++ [padLen]) ++ [nh] := by
      simp
    have hl1 : (payload ++ generate_padding padLen ++ [padLen]).length =
        (payload ++ generate_padding padLen ++ [padLen, nh]).length - 1 := by
      simp only [List.length_append, length_generate_padding, List.length_cons,
        List.length_nil]
      omega
    rw [hassoc] at hl1 ⊢
    rw [byte_at, List.drop_left' hl1]
    rfl
  have hpl : byte_at (payload ++ generate_padding padLen ++ [padLen, nh])
      ((payload ++ generate_padding padLen ++ [padLen, nh]).length - 2) = padLen := by
    have hl2 : (payload ++ generate_padding padLen).length =
        (payload ++ generate_padding padLen ++ [padLen, nh]).length - 2 := by
      omega
    rw [byte_at, List.drop_left' hl2]
    rfl
  have h2 : ¬ (payload ++ generate_padding padLen ++ [padLen, nh]).length < 2 := by
    omega
  have hfit : ¬ (payload ++ generate_padding padLen ++ [padLen, nh]).length - 2 <
      byte_at (payload ++ generate_padding padLen ++ [padLen, nh])
        ((payload ++ generate_padding padLen ++ [padLen, nh]).length - 2) := by
    rw [hpl]
    omega
  have hsub : (payload ++ generate_padding padLen ++ [padLen, nh]).length - 2 -
      padLen = payload.length := by
    omega
  have htake : (payload ++ generate_padding padLen ++ [padLen, nh]).take
      ((payload ++ generate_padding padLen ++ [padLen, nh]).length - 2) =
      payload ++ generate_padding padLen :=
    List.take_left' (by omega)
  have hslice : (((payload ++ generate_padding padLen ++ [padLen, nh]).take
      ((payload ++ generate_padding padLen ++ [padLen, nh]).length - 2)).drop
      ((payload ++ generate_padding padLen ++ [padLen, nh]).length - 2 -
        byte_at (payload ++ generate_padding padLen ++ [padLen, nh])
          ((payload ++ generate_padding padLen ++ [padLen, nh]).length - 2))) =
      generate_padding padLen := by
    rw [htake, hpl, hsub]
    exact List.drop_left' rfl
  have hcheck : ¬ check_padding
      (((payload ++ generate_padding padLen ++ [padLen, nh]).take
        ((payload ++ generate_padding padLen ++ [padLen, nh]).length - 2)).drop
        ((payload ++ generate_padding padLen ++ [padLen, nh]).length - 2 -
          byte_at (payload ++ generate_padding padLen ++ [padLen, nh])
            ((payload ++ generate_padding padLen ++ [padLen, nh]).length - 2))) = false := by
    rw [hslice, check_padding_generate]
    simp
  have hleading : (payload ++ generate_padding padLen ++ [padLen, nh]).take
      ((payload ++ generate_padding padLen ++ [padLen, nh]).length - 2 -
        byte_at (payload ++ generate_padding padLen ++ [padLen, nh])
          ((payload ++ generate_padding padLen ++ [padLen, nh]).length - 2)) =
      payload := by
    rw [hpl, hsub,
      take_append_of_le _ _ (by omega),
      take_append_of_le _ _ (by omega), List.take_length]
  unfold remove_padding
  rw [if_neg h2]
  simp only []
  rw [if_neg hfit, if_neg hcheck, hleading, hcreate, hnh]

/-! ### Stepping lemmas for the decrypt pipeline -/

theorem decrypt_parse_fail (ctx : EspContext) (p : EspPacket)
    (h : parse_datagram p.packet_data ctx.crypter.iv_size ctx.signer.icv_size
      ctx.crypter.block_size = none) :
    decrypt ctx p = (Status.PARSE_ERROR, { p with payload := none }, ctx, none) := by
  simp [decrypt, h]

theorem decrypt_check_fail (ctx : EspContext) (p : EspPacket)
    (spi seq : Nat) (iv ct icv : List Nat)
    (hp : parse_datagram p.packet_data ctx.crypter.iv_size ctx.signer.icv_size
      ctx.crypter.block_size = some (spi, seq, iv, ct, icv))
    (hw : ctx.window.check seq = false) :
    decrypt ctx p = (Status.VERIFY_ERROR, { p with payload := none }, ctx, none) := by
  simp [decrypt, hp, hw]

theorem decrypt_after_mac (ctx : EspContext) (p : EspPacket)
    (spi seq : Nat) (iv ct icv : List Nat)
    (hp : parse_datagram p.packet_data ctx.crypter.iv_size ctx.signer.icv_size
      ctx.crypter.block_size = some (spi, seq, iv, ct, icv))
    (hw : ctx.window.check seq = true)
    (hs : ctx.signer.sign (p.packet_data.take 8 ++ iv ++ ct) = some icv) :
    decrypt ctx p =
      (match ctx.crypter.dec ct iv with
       | none => (Status.FAILED, { p with payload := none },
           { ctx with window := ctx.window.commit seq }, none)
       | some pt =>
         match remove_padding pt with
         | (none, d) => (Status.PARSE_ERROR, { p with payload := none },
             { ctx with window := ctx.window.commit seq }, some d)
         | (some (q, nh), d) =>
           (Status.SUCCESS, { p with payload := some q, next_header := nh },
             { ctx with window := ctx.window.commit seq }, some d)) := by
  have hs' : ctx.signer.sign (p.packet_data.take 8 ++ (iv ++ ct)) = some icv := by
    rw [← List.append_assoc]
    exact hs
  simp [decrypt, hp, hw, hs']

theorem decrypt_mac_fail_none (ctx : EspContext) (p : EspPacket)
    (spi seq : Nat) (iv ct icv : List Nat)
    (hp : parse_datagram p.packet_data ctx.crypter.iv_size ctx.signer.icv_size
      ctx.crypter.block_size = some (spi, seq, iv, ct, icv))
    (hw : ctx.window.check seq = true)
    (hs : ctx.signer.sign (p.packet_data.take 8 ++ iv ++ ct) = none) :
    decrypt ctx p = (Status.FAILED, { p with payload := none }, ctx, none) := by
  have hs' : ctx.signer.sign (p.packet_data.take 8 ++ (iv ++ ct)) = none := by
    rw [← List.append_assoc]
    exact hs
  simp [decrypt, hp, hw, hs']

theorem decrypt_mac_fail_ne (ctx : EspContext) (p : EspPacket)
    (spi seq : Nat) (iv ct icv tag : List Nat)
    (hp : parse_datagram p.packet_data ctx.crypter.iv_size ctx.signer.icv_size
      ctx.crypter.block_size = some (spi, seq, iv, ct, icv))
    (hw : ctx.window.check seq = true)
    (hs : ctx.signer.sign (p.packet_data.take 8 ++ iv ++ ct) = some tag)
    (hne : tag ≠ icv) :
    decrypt ctx p = (Status.FAILED, { p with payload := none }, ctx, none) := by
  have hs' : ctx.signer.sign (p.packet_data.take 8 ++ (iv ++ ct)) = some tag := by
    rw [← List.append_assoc]
    exact hs
  simp [decrypt, hp, hw, hs', hne]

/-! ### Stepping lemma for the encrypt pipeline -/

theorem encrypt_success_eq (ctx : EspContext) (p : EspPacket) (spi : Nat)
    (r : Nat → Option (List Nat)) (ivb ct tag : List Nat)
    (hcy : ctx.send_seqno ≠ 4294967295)
    (hrng : ctx.rng = some r)
    (hr : r ctx.crypter.iv_size = some ivb)
    (henc : ctx.crypter.enc (esp_plaintext p ctx.crypter.block_size) ivb = some ct)
    (hsg : ctx.signer.sign (beBytes4 spi ++ beBytes4 (ctx.send_seqno + 1) ++ ivb ++ ct) =
      some tag) :
    encrypt ctx p spi =
      (Status.SUCCESS,
       { p with packet_data :=
           beBytes4 spi ++ beBytes4 (ctx.send_seqno + 1) ++ ivb ++ ct ++ tag },
       { ctx with send_seqno := ctx.send_seqno + 1 }) := by
  have hsg' : ctx.signer.sign (beBytes4 spi ++ (beBytes4 (ctx.send_seqno + 1) ++ (ivb ++ ct))) =
      some tag := by
    rw [← List.append_assoc, ← List.append_assoc]
    exact hsg
  simp [encrypt, hcy, hrng, hr, henc, hsg']

/-! ### Shape of the results on failure -/

theorem encrypt_shape (ctx : EspContext) (p : EspPacket) (spi : Nat) :
    (encrypt ctx p spi).1 = Status.SUCCESS ∨
      (encrypt ctx p spi).2.1.packet_data = [] := by
  unfold encrypt
  dsimp only
  split
  · simp
  · split
    · simp
    · split
      · simp
      · split
        · simp
        · split
          · simp
          · simp

theorem decrypt_shape (ctx : EspContext) (p : EspPacket) :
    (decrypt ctx p).1 = Status.SUCCESS ∨ (decrypt ctx p).2.1.payload = none := by
  unfold decrypt
  split
  · simp
  · split
    · simp
    · split
      · simp
      · split
        · simp
        · split
          · simp
          · split
            · simp
            · simp

theorem remove_padding_cases (pt : List Nat) :
    ((remove_padding pt).1 = none ∧
      ((remove_padding pt).2 = PlainDisposition.chunk_freed ∨
        (remove_padding pt).2 = PlainDisposition.untouched)) ∨
    ((remove_padding pt).1 ≠ none ∧
      (remove_padding pt).2 = PlainDisposition.retained) := by
  unfold remove_padding
  dsimp only
  split
  · simp
  · split
    · simp
    · split
      · simp
      · split
        · simp
        · simp

theorem remove_padding_fail_disposition (pt : List Nat)
    (h : (remove_padding pt).1 = none) :
    (remove_padding pt).2 = PlainDisposition.chunk_freed ∨
      (remove_padding pt).2 = PlainDisposition.untouched := by
  rcases remove_padding_cases pt with ⟨_, hd⟩ | ⟨hne, _⟩
  · exact hd
  · exact absurd h hne

/-! ### Concrete fixtures for closed witnesses and counterexamples -/

/-- Identity block cipher with block size 4 and IV size 1. -/
def crTest : Crypter := ⟨4, 1, fun x _ => some x, fun x _ => some x⟩

/-- Constant MAC of length 1. -/
def sgTest : Signer := ⟨1, fun _ => some [0]⟩

/-- Empty 8-slot anti-replay window. -/
def wTest : ReplayWindow := ⟨0, List.replicate 8 false⟩

/-- RNG producing constant bytes. -/
def rngTest : Nat → Option (List Nat) := fun n => some (List.replicate n 9)

/-- RNG whose fill always fails. -/
def rngFailTest : Nat → Option (List Nat) := fun _ => none

/-- A container with no payload and no raw data. -/
def pTest : EspPacket := ⟨[], none, 0⟩

/-! ### Claims -/

/-- C1 (counterexample): a datagram whose MAC verifies but whose decrypted
tail is invalid (pad length 9 in a 4-byte plaintext) makes decrypt return
PARSE_ERROR from tail decoding, yet the anti-replay window has already
been advanced to the packet's sequence number — the commit does not happen
as the final step and the window is not left unchanged. -/
theorem decrypt_commit_counterexample :
    (decrypt ⟨crTest, sgTest, none, 0, wTest⟩
        ⟨[0, 0, 0, 1, 0, 0, 0, 1, 5, 1, 2, 9, 4, 0], none, 0⟩).1 =
      Status.PARSE_ERROR ∧
    (decrypt ⟨crTest, sgTest, none, 0, wTest⟩
        ⟨[0, 0, 0, 1, 0, 0, 0, 1, 5, 1, 2, 9, 4, 0], none, 0⟩).2.2.2 =
      some PlainDisposition.chunk_freed ∧
    (decrypt ⟨crTest, sgTest, none, 0, wTest⟩
        ⟨[0, 0, 0, 1, 0, 0, 0, 1, 5, 1, 2, 9, 4, 0], none, 0⟩).2.2.1.window ≠ wTest := by
  decide

/-- C1 (amended): decrypt commits the sequence number into the window
immediately after MAC verification succeeds, before decryption, tail
decoding and inner-IP parsing; a failing window check or a failing MAC
leaves the window unchanged, and once the MAC verifies the window equals
`commit seq` regardless of any later failure. -/
theorem decrypt_window_commit_after_mac (ctx : EspContext) (p : EspPacket)
    (spi seq : Nat) (iv ct icv : List Nat)
    (hp : parse_datagram p.packet_data ctx.crypter.iv_size ctx.signer.icv_size
      ctx.crypter.block_size = some (spi, seq, iv, ct, icv)) :
    (ctx.window.check seq = false → (decrypt ctx p).2.2.1.window = ctx.window) ∧
    (ctx.window.check seq = true →
      ctx.signer.sign (p.packet_data.take 8 ++ iv ++ ct) ≠ some icv →
      (decrypt ctx p).2.2.1.window = ctx.window) ∧
    (ctx.window.check seq = true →
      ctx.signer.sign (p.packet_data.take 8 ++ iv ++ ct) = some icv →
      (decrypt ctx p).2.2.1.window = ctx.window.commit seq) := by
  refine ⟨?_, ?_, ?_⟩
  · intro hw
    rw [decrypt_check_fail ctx p spi seq iv ct icv hp hw]
  · intro hw hne
    cases hs : ctx.signer.sign (p.packet_data.take 8 ++ iv ++ ct) with
    | none =>
      rw [decrypt_mac_fail_none ctx p spi seq iv ct icv hp hw hs]
    | some t =>
      have ht : t ≠ icv := fun he => hne (he ▸ hs)
      rw [decrypt_mac_fail_ne ctx p spi seq iv ct icv t hp hw hs ht]
  · intro hw hs
    rw [decrypt_after_mac ctx p spi seq iv ct icv hp hw hs]
    cases hd : ctx.crypter.dec ct iv with
    | none => simp
    | some pt =>
      rcases hrp : remove_padding pt with ⟨o, d⟩
      cases o with
      | none => simp [hrp]
      | some v =>
        obtain ⟨q, nh⟩ := v
        simp [hrp]

/-- C1 (witness): the amended theorem applied to the counterexample
datagram — the window after the failed decrypt is the committed window. -/
theorem decrypt_window_commit_after_mac_witness :
    (decrypt ⟨crTest, sgTest, none, 0, wTest⟩
        ⟨[0, 0, 0, 1, 0, 0, 0, 1, 5, 1, 2, 9, 4, 0], none, 0⟩).2.2.1.window =
      wTest.commit 1 :=
  (decrypt_window_commit_after_mac ⟨crTest, sgTest, none, 0, wTest⟩
      ⟨[0, 0, 0, 1, 0, 0, 0, 1, 5, 1, 2, 9, 4, 0], none, 0⟩
      1 1 [5] [1, 2, 9, 4] [0] (by decide)).2.2 (by decide) (by decide)

/-- C3 (counterexample): a datagram of length 8 + iv_len + icv_len — whose
ciphertext region has zero bytes and which is shorter than the claimed
minimum 8 + iv_len + icv_len + block_size — is not rejected with
PARSE_ERROR: its empty ciphertext passes the length check and the packet
fails later, here at sequence verification with VERIFY_ERROR. -/
theorem decrypt_minlen_counterexample :
    (⟨[0, 0, 0, 1, 0, 0, 0, 0, 5, 7], none, 0⟩ : EspPacket).packet_data.length <
      8 + crTest.iv_size + sgTest.icv_size + crTest.block_size ∧
    (decrypt ⟨crTest, sgTest, none, 0, wTest⟩
        ⟨[0, 0, 0, 1, 0, 0, 0, 0, 5, 7], none, 0⟩).1 ≠ Status.PARSE_ERROR := by
  decide

/-- C3 (amended): decrypt returns PARSE_ERROR at the parsing step unless
`datagram_len ≥ 8 + iv_len + icv_len` and
`(datagram_len − 8 − iv_len − icv_len) mod block_size = 0`; there is no
minimum of one cipher block, and a datagram whose ciphertext region has
zero bytes passes this parsing stage. -/
theorem decrypt_length_check (ctx : EspContext) (p : EspPacket) :
    (¬ (8 + ctx.crypter.iv_size + ctx.signer.icv_size ≤ p.packet_data.length ∧
        (p.packet_data.length - (8 + ctx.crypter.iv_size + ctx.signer.icv_size)) %
          ctx.crypter.block_size = 0) →
      (decrypt ctx p).1 = Status.PARSE_ERROR) ∧
    (p.packet_data.length = 8 + ctx.crypter.iv_size + ctx.signer.icv_size →
      parse_datagram p.packet_data ctx.crypter.iv_size ctx.signer.icv_size
        ctx.crypter.block_size ≠ none) := by
  constructor
  · intro h
    have hp : parse_datagram p.packet_data ctx.crypter.iv_size ctx.signer.icv_size
        ctx.crypter.block_size = none := by
      unfold parse_datagram
      rw [if_neg h]
    rw [decrypt_parse_fail ctx p hp]
  · intro hlen
    have hcond : 8 + ctx.crypter.iv_size + ctx.signer.icv_size ≤ p.packet_data.length ∧
        (p.packet_data.length - (8 + ctx.crypter.iv_size + ctx.signer.icv_size)) %
          ctx.crypter.block_size = 0 := by
      refine ⟨by omega, ?_⟩
      have : p.packet_data.length - (8 + ctx.crypter.iv_size + ctx.signer.icv_size) = 0 := by
        omega
      rw [this]
      exact Nat.zero_mod _
    unfold parse_datagram
    rw [if_pos hcond]
    simp

/-- C3 (witness): a 9-byte datagram is rejected with PARSE_ERROR, and the
counterexample's 10-byte datagram with an empty ciphertext region passes
the parsing stage. -/
theorem decrypt_length_check_witness :
    (decrypt ⟨crTest, sgTest, none, 0, wTest⟩
        ⟨[0, 0, 0, 1, 0, 0, 0, 0, 5], none, 0⟩).1 = Status.PARSE_ERROR ∧
    parse_datagram [0, 0, 0, 1, 0, 0, 0, 0, 5, 7] crTest.iv_size sgTest.icv_size
      crTest.block_size ≠ none :=
  ⟨(decrypt_length_check ⟨crTest, sgTest, none, 0, wTest⟩
      ⟨[0, 0, 0, 1, 0, 0, 0, 0, 5], none, 0⟩).1 (by decide),
   (decrypt_length_check ⟨crTest, sgTest, none, 0, wTest⟩
      ⟨[0, 0, 0, 1, 0, 0, 0, 0, 5, 7], none, 0⟩).2 (by decide)⟩

/-- C4 (counterexample): a datagram whose MAC verifies and whose decrypted
tail has valid padding but an undecodable inner payload (first nibble 5)
makes decrypt return PARSE_ERROR with the plaintext buffer left untouched
— it is not wiped (and not even released). -/
theorem decrypt_wipe_counterexample :
    (decrypt ⟨crTest, sgTest, none, 0, wTest⟩
        ⟨[0, 0, 0, 1, 0, 0, 0, 1, 5, 80, 1, 1, 4, 0], none, 0⟩).1 =
      Status.PARSE_ERROR ∧
    (decrypt ⟨crTest, sgTest, none, 0, wTest⟩
        ⟨[0, 0, 0, 1, 0, 0, 0, 1, 5, 80, 1, 1, 4, 0], none, 0⟩).2.2.2 =
      some PlainDisposition.untouched ∧
    PlainDisposition.untouched ≠ PlainDisposition.wiped := by
  decide

/-- C4 (amended): whenever decrypt's tail decoding fails (invalid length,
invalid padding, or an undecodable inner payload), it returns PARSE_ERROR,
but the decrypted plaintext buffer is not wiped: on invalid length or
invalid padding it is released with `chunk_free` (freed without being
overwritten), and on an undecodable inner payload no release call is made
at all. -/
theorem decrypt_tail_failure_not_wiped (ctx : EspContext) (p : EspPacket)
    (spi seq : Nat) (iv ct icv pt : List Nat)
    (hp : parse_datagram p.packet_data ctx.crypter.iv_size ctx.signer.icv_size
      ctx.crypter.block_size = some (spi, seq, iv, ct, icv))
    (hw : ctx.window.check seq = true)
    (hs : ctx.signer.sign (p.packet_data.take 8 ++ iv ++ ct) = some icv)
    (hd : ctx.crypter.dec ct iv = some pt)
    (hfail : (remove_padding pt).1 = none) :
    (decrypt ctx p).1 = Status.PARSE_ERROR ∧
    (decrypt ctx p).2.2.2 = some (remove_padding pt).2 ∧
    ((remove_padding pt).2 = PlainDisposition.chunk_freed ∨
      (remove_padding pt).2 = PlainDisposition.untouched) := by
  have hdisp := remove_padding_fail_disposition pt hfail
  rw [decrypt_after_mac ctx p spi seq iv ct icv hp hw hs]
  rcases hrp : remove_padding pt with ⟨o, d⟩
  have ho : o = none := by
    rw [hrp] at hfail
    exact hfail
  subst ho
  rw [hrp] at hdisp
  refine ⟨by simp [hd, hrp], by simp [hd, hrp], hdisp⟩

/-- C4 (witness): the amended theorem at a concrete datagram whose tail
has an invalid pad length — decrypt returns PARSE_ERROR and the buffer
fate is `chunk_free`, not a wipe. -/
theorem decrypt_tail_failure_not_wiped_witness :
    (decrypt ⟨crTest, sgTest, none, 0, wTest⟩
        ⟨[0, 0, 0, 1, 0, 0, 0, 1, 5, 1, 2, 9, 5, 0], none, 0⟩).1 =
      Status.PARSE_ERROR ∧
    (decrypt ⟨crTest, sgTest, none, 0, wTest⟩
        ⟨[0, 0, 0, 1, 0, 0, 0, 1, 5, 1, 2, 9, 5, 0], none, 0⟩).2.2.2 =
      some (remove_padding [1, 2, 9, 5]).2 ∧
    ((remove_padding [1, 2, 9, 5]).2 = PlainDisposition.chunk_freed ∨
      (remove_padding [1, 2, 9, 5]).2 = PlainDisposition.untouched) :=
  decrypt_tail_failure_not_wiped ⟨crTest, sgTest, none, 0, wTest⟩
    ⟨[0, 0, 0, 1, 0, 0, 0, 1, 5, 1, 2, 9, 5, 0], none, 0⟩
    1 1 [5] [1, 2, 9, 5] [0] [1, 2, 9, 5]
    (by decide) (by decide) (by decide) (by decide) (by decide)

/-- C6: for every payload length and (positive) block size, the pad length
computed by encrypt, `block_size − ((payload_len + 2) mod block_size)`,
lies in `1..block_size`, and `payload_len + 2 + pad_length` is a multiple
of the block size. -/
theorem esp_pad_length_law (payload_len block_size : Nat)
    (hbs : 0 < block_size) :
    1 ≤ esp_pad_length payload_len block_size ∧
    esp_pad_length payload_len block_size ≤ block_size ∧
    (payload_len + 2 + esp_pad_length payload_len block_size) % block_size = 0 :=
  pad_law payload_len block_size hbs

/-- C6 (witness): the padding law at payload length 20 and block size 16
(pad length 10, tail length 32). -/
theorem esp_pad_length_law_witness :
    1 ≤ esp_pad_length 20 16 ∧ esp_pad_length 20 16 ≤ 16 ∧
      (20 + 2 + esp_pad_length 20 16) % 16 = 0 :=
  esp_pad_length_law 20 16 (by decide)

/-- C7: when decrypt reaches tail decoding and the decrypted plaintext
tail is malformed — its pad length byte exceeds `plaintext_len − 2`, or
some pad byte deviates from the `1..pad_length` pattern (the i-th pad
byte, 1-based, must equal i) — decrypt returns PARSE_ERROR. -/
theorem decrypt_bad_padding_rejected (ctx : EspContext) (p : EspPacket)
    (spi seq : Nat) (iv ct icv pt : List Nat)
    (hp : parse_datagram p.packet_data ctx.crypter.iv_size ctx.signer.icv_size
      ctx.crypter.block_size = some (spi, seq, iv, ct, icv))
    (hw : ctx.window.check seq = true)
    (hs : ctx.signer.sign (p.packet_data.take 8 ++ iv ++ ct) = some icv)
    (hd : ctx.crypter.dec ct iv = some pt)
    (h2 : 2 ≤ pt.length)
    (hbad : pt.length - 2 < byte_at pt (pt.length - 2) ∨
      (byte_at pt (pt.length - 2) ≤ 255 ∧
        ∃ i, i < byte_at pt (pt.length - 2) ∧
          byte_at ((pt.take (pt.length - 2)).drop
            (pt.length - 2 - byte_at pt (pt.length - 2))) i ≠ i + 1)) :
    (decrypt ctx p).1 = Status.PARSE_ERROR := by
  have hfail : (remove_padding pt).1 = none := by
    unfold remove_padding
    dsimp only
    rw [if_neg (by omega : ¬ pt.length < 2)]
    rcases hbad with hflow | ⟨hpl255, i, hi, hne⟩
    · rw [if_pos hflow]
    · by_cases hfit : pt.length - 2 < byte_at pt (pt.length - 2)
      · rw [if_pos hfit]
      · rw [if_neg hfit]
        have hlenslice : ((pt.take (pt.length - 2)).drop
            (pt.length - 2 - byte_at pt (pt.length - 2))).length =
            byte_at pt (pt.length - 2) := by
          rw [List.length_drop, List.length_take]
          omega
        have hcheck : check_padding ((pt.take (pt.length - 2)).drop
            (pt.length - 2 - byte_at pt (pt.length - 2))) = false := by
          apply check_padding_from_false _ 0 i (by omega)
          have hmod : (0 + i + 1) % 256 = i + 1 := by
            rw [Nat.mod_eq_of_lt (by omega)]
            omega
          rw [hmod]
          exact hne
        rw [if_pos hcheck]
  rw [decrypt_after_mac ctx p spi seq iv ct icv hp hw hs]
  rcases hrp : remove_padding pt with ⟨o, d⟩
  have ho : o = none := by
    rw [hrp] at hfail
    exact hfail
  subst ho
  simp [hd, hrp]

/-- C7 (witness): a decrypted tail `[80,80,80,1,2,9,3,4]` with pad length
3 whose third pad byte is 9 instead of 3 — decrypt returns PARSE_ERROR. -/
theorem decrypt_bad_padding_rejected_witness :
    (decrypt ⟨crTest, sgTest, none, 0, wTest⟩
        ⟨[0, 0, 0, 1, 0, 0, 0, 1, 5, 80, 80, 80, 1, 2, 9, 3, 4, 0], none, 0⟩).1 =
      Status.PARSE_ERROR := by
  have h := decrypt_bad_padding_rejected ⟨crTest, sgTest, none, 0, wTest⟩
    ⟨[0, 0, 0, 1, 0, 0, 0, 1, 5, 80, 80, 80, 1, 2, 9, 3, 4, 0], none, 0⟩
    1 1 [5] [80, 80, 80, 1, 2, 9, 3, 4] [0] [80, 80, 80, 1, 2, 9, 3, 4]
    (by decide) (by decide) (by decide) (by decide) (by decide)
    (Or.inr ⟨by decide, 2, by decide, by decide⟩)
  exact h

/-- C8: encrypt returns FAILED when the SA's sequence cursor has cycled
(`0xFFFFFFFF`), NOT_FOUND when no RNG is available, and FAILED when the
RNG fails to yield the requested IV bytes; in each case the container's
raw buffer stays empty — no datagram is emitted. -/
theorem encrypt_error_codes (ctx : EspContext) (p : EspPacket) (spi : Nat) :
    (ctx.send_seqno = 4294967295 →
      (encrypt ctx p spi).1 = Status.FAILED ∧
        (encrypt ctx p spi).2.1.packet_data = []) ∧
    (ctx.send_seqno ≠ 4294967295 → ctx.rng = none →
      (encrypt ctx p spi).1 = Status.NOT_FOUND ∧
        (encrypt ctx p spi).2.1.packet_data = []) ∧
    (∀ r, ctx.send_seqno ≠ 4294967295 → ctx.rng = some r →
      r ctx.crypter.iv_size = none →
      (encrypt ctx p spi).1 = Status.FAILED ∧
        (encrypt ctx p spi).2.1.packet_data = []) := by
  refine ⟨?_, ?_, ?_⟩
  · intro h
    constructor <;> simp [encrypt, h]
  · intro h hr
    constructor <;> simp [encrypt, h, hr]
  · intro r h hr hiv
    constructor <;> simp [encrypt, h, hr, hiv]

/-- C8 (witness): the three failure modes at concrete contexts — cycled
cursor, missing RNG, failing RNG — with the raw buffer empty each time. -/
theorem encrypt_error_codes_witness :
    ((encrypt ⟨crTest, sgTest, some rngTest, 4294967295, wTest⟩ pTest 7).1 =
        Status.FAILED ∧
      (encrypt ⟨crTest, sgTest, some rngTest, 4294967295, wTest⟩ pTest 7).2.1.packet_data =
        []) ∧
    ((encrypt ⟨crTest, sgTest, none, 0, wTest⟩ pTest 7).1 = Status.NOT_FOUND ∧
      (encrypt ⟨crTest, sgTest, none, 0, wTest⟩ pTest 7).2.1.packet_data = []) ∧
    ((encrypt ⟨crTest, sgTest, some rngFailTest, 0, wTest⟩ pTest 7).1 =
        Status.FAILED ∧
      (encrypt ⟨crTest, sgTest, some rngFailTest, 0, wTest⟩ pTest 7).2.1.packet_data =
        []) :=
  ⟨(encrypt_error_codes ⟨crTest, sgTest, some rngTest, 4294967295, wTest⟩ pTest 7).1
      (by decide),
   (encrypt_error_codes ⟨crTest, sgTest, none, 0, wTest⟩ pTest 7).2.1
      (by decide) rfl,
   (encrypt_error_codes ⟨crTest, sgTest, some rngFailTest, 0, wTest⟩ pTest 7).2.2
      rngFailTest (by decide) rfl rfl⟩

/-- C9: whenever encrypt returns any status other than SUCCESS, the
container's raw byte buffer is empty — encrypt replaced the raw data with
the empty chunk before any other processing and never restored it. -/
theorem encrypt_nonsuccess_empty_data (ctx : EspContext) (p : EspPacket)
    (spi : Nat) (h : (encrypt ctx p spi).1 ≠ Status.SUCCESS) :
    (encrypt ctx p spi).2.1.packet_data = [] := by
  rcases encrypt_shape ctx p spi with hs | hd
  · exact absurd hs h
  · exact hd

/-- C9 (witness): an encrypt that fails (no RNG) leaves the raw buffer
empty even though the container held raw bytes before the call. -/
theorem encrypt_nonsuccess_empty_data_witness :
    (encrypt ⟨crTest, sgTest, none, 0, wTest⟩ ⟨[1, 2, 3], none, 0⟩ 7).1 ≠
      Status.SUCCESS ∧
    (encrypt ⟨crTest, sgTest, none, 0, wTest⟩ ⟨[1, 2, 3], none, 0⟩ 7).2.1.packet_data =
      [] :=
  ⟨by decide,
   encrypt_nonsuccess_empty_data ⟨crTest, sgTest, none, 0, wTest⟩
     ⟨[1, 2, 3], none, 0⟩ 7 (by decide)⟩

/-- C10: decrypt discards any previously decoded inner packet first, so
after a decrypt that fails at any step, `get_payload` returns none. -/
theorem decrypt_nonsuccess_no_payload (ctx : EspContext) (p : EspPacket)
    (h : (decrypt ctx p).1 ≠ Status.SUCCESS) :
    get_payload (decrypt ctx p).2.1 = none := by
  rcases decrypt_shape ctx p with hs | hd
  · exact absurd hs h
  · exact hd

/-- C10 (witness): a failing decrypt (truncated datagram) on a container
that held a decoded payload leaves `get_payload` at none. -/
theorem decrypt_nonsuccess_no_payload_witness :
    (decrypt ⟨crTest, sgTest, none, 0, wTest⟩ ⟨[1, 2, 3], some ⟨[64]⟩, 4⟩).1 ≠
      Status.SUCCESS ∧
    get_payload (decrypt ⟨crTest, sgTest, none, 0, wTest⟩
      ⟨[1, 2, 3], some ⟨[64]⟩, 4⟩).2.1 = none :=
  ⟨by decide,
   decrypt_nonsuccess_no_payload ⟨crTest, sgTest, none, 0, wTest⟩
     ⟨[1, 2, 3], some ⟨[64]⟩, 4⟩ (by decide)⟩

/-- C5: every successful encrypt emits SPI ‖ sequence (big-endian 4-byte
fields) ‖ IV ‖ ciphertext ‖ ICV with total length
`8 + iv_len + plaintext_len + icv_len`; the ICV is the MAC over exactly
the first `8 + iv_len + plaintext_len` bytes, and parsing the datagram for
decrypt splits off exactly the same IV, ciphertext and ICV, so the MAC is
verified over that same region (`header ‖ IV ‖ ciphertext`). -/
theorem encrypt_datagram_layout (ctx : EspContext) (p : EspPacket) (spi : Nat)
    (r : Nat → Option (List Nat)) (ivb ct tag : List Nat)
    (hbs : 0 < ctx.crypter.block_size)
    (hcy : ctx.send_seqno ≠ 4294967295)
    (hrng : ctx.rng = some r)
    (hr : r ctx.crypter.iv_size = some ivb)
    (hivlen : ivb.length = ctx.crypter.iv_size)
    (henc : ctx.crypter.enc (esp_plaintext p ctx.crypter.block_size) ivb = some ct)
    (hct : ct.length = (esp_plaintext p ctx.crypter.block_size).length)
    (hsg : ctx.signer.sign
      (beBytes4 spi ++ beBytes4 (ctx.send_seqno + 1) ++ ivb ++ ct) = some tag)
    (htag : tag.length = ctx.signer.icv_size) :
    (encrypt ctx p spi).1 = Status.SUCCESS ∧
    (encrypt ctx p spi).2.1.packet_data =
      beBytes4 spi ++ beBytes4 (ctx.send_seqno + 1) ++ ivb ++ ct ++ tag ∧
    (encrypt ctx p spi).2.1.packet_data.length =
      8 + ctx.crypter.iv_size + (esp_plaintext p ctx.crypter.block_size).length +
        ctx.signer.icv_size ∧
    ctx.signer.sign ((encrypt ctx p spi).2.1.packet_data.take
      (8 + ctx.crypter.iv_size + ct.length)) = some tag ∧
    parse_datagram (encrypt ctx p spi).2.1.packet_data ctx.crypter.iv_size
      ctx.signer.icv_size ctx.crypter.block_size =
      some (readBE32 ((beBytes4 spi ++ beBytes4 (ctx.send_seqno + 1)).take 4),
        readBE32 (((beBytes4 spi ++ beBytes4 (ctx.send_seqno + 1)).drop 4).take 4),
        ivb, ct, tag) ∧
    (encrypt ctx p spi).2.1.packet_data.take 8 ++ ivb ++ ct =
      (encrypt ctx p spi).2.1.packet_data.take
        (8 + ctx.crypter.iv_size + ct.length) := by
  have hE := encrypt_success_eq ctx p spi r ivb ct tag hcy hrng hr henc hsg
  rw [hE]
  dsimp only
  have h8 : (beBytes4 spi ++ beBytes4 (ctx.send_seqno + 1)).length = 8 := by
    simp [length_beBytes4]
  have hXlen : (beBytes4 spi ++ beBytes4 (ctx.send_seqno + 1) ++ ivb ++ ct).length =
      8 + ctx.crypter.iv_size + ct.length := by
    simp only [List.length_append, length_beBytes4]
    omega
  have htk : (beBytes4 spi ++ beBytes4 (ctx.send_seqno + 1) ++ ivb ++ ct ++ tag).take
      (8 + ctx.crypter.iv_size + ct.length) =
      beBytes4 spi ++ beBytes4 (ctx.send_seqno + 1) ++ ivb ++ ct := by
    rw [take_append_of_le _ _ (by omega), take_full _ hXlen]
  have h8tk : (beBytes4 spi ++ beBytes4 (ctx.send_seqno + 1) ++ ivb ++ ct ++ tag).take 8 =
      beBytes4 spi ++ beBytes4 (ctx.send_seqno + 1) := by
    rw [take_append_of_le _ _ (by simp only [List.length_append, length_beBytes4]; omega),
      take_append_of_le _ _ (by simp only [List.length_append, length_beBytes4]; omega),
      take_append_of_le _ _ (by omega),
      take_full _ h8]
  have hmod : ct.length % ctx.crypter.block_size = 0 := by
    rw [hct]
    exact esp_plaintext_mod p _ hbs
  refine ⟨rfl, rfl, ?_, ?_, ?_, ?_⟩
  · simp only [List.length_append, length_beBytes4]
    omega
  · rw [htk]
    exact hsg
  · exact parse_datagram_wellformed (beBytes4 spi ++ beBytes4 (ctx.send_seqno + 1))
      ivb ct tag ctx.crypter.iv_size ctx.signer.icv_size ctx.crypter.block_size
      h8 hivlen htag hmod
  · rw [h8tk, htk]

/-- C5 (witness): the layout theorem at a concrete SA (identity cipher,
block 4, IV 1, constant 1-byte MAC) and a 1-byte IPv4 payload. -/
theorem encrypt_datagram_layout_witness :
    (encrypt ⟨crTest, sgTest, some rngTest, 0, wTest⟩
        (esp_packet_create_from_payload (some ⟨[64]⟩)) 3).1 = Status.SUCCESS ∧
    (encrypt ⟨crTest, sgTest, some rngTest, 0, wTest⟩
        (esp_packet_create_from_payload (some ⟨[64]⟩)) 3).2.1.packet_data =
      beBytes4 3 ++ beBytes4 (0 + 1) ++ [9] ++ [64, 1, 1, 4] ++ [0] ∧
    (encrypt ⟨crTest, sgTest, some rngTest, 0, wTest⟩
        (esp_packet_create_from_payload (some ⟨[64]⟩)) 3).2.1.packet_data.length =
      8 + crTest.iv_size +
        (esp_plaintext (esp_packet_create_from_payload (some ⟨[64]⟩))
          crTest.block_size).length + sgTest.icv_size ∧
    sgTest.sign ((encrypt ⟨crTest, sgTest, some rngTest, 0, wTest⟩
        (esp_packet_create_from_payload (some ⟨[64]⟩)) 3).2.1.packet_data.take
      (8 + crTest.iv_size + [64, 1, 1, 4].length)) = some [0] ∧
    parse_datagram (encrypt ⟨crTest, sgTest, some rngTest, 0, wTest⟩
        (esp_packet_create_from_payload (some ⟨[64]⟩)) 3).2.1.packet_data
        crTest.iv_size sgTest.icv_size crTest.block_size =
      some (readBE32 ((beBytes4 3 ++ beBytes4 (0 + 1)).take 4),
        readBE32 (((beBytes4 3 ++ beBytes4 (0 + 1)).drop 4).take 4),
        [9], [64, 1, 1, 4], [0]) ∧
    (encrypt ⟨crTest, sgTest, some rngTest, 0, wTest⟩
        (esp_packet_create_from_payload (some ⟨[64]⟩)) 3).2.1.packet_data.take 8 ++
        [9] ++ [64, 1, 1, 4] =
      (encrypt ⟨crTest, sgTest, some rngTest, 0, wTest⟩
        (esp_packet_create_from_payload (some ⟨[64]⟩)) 3).2.1.packet_data.take
        (8 + crTest.iv_size + [64, 1, 1, 4].length) :=
  encrypt_datagram_layout ⟨crTest, sgTest, some rngTest, 0, wTest⟩
    (esp_packet_create_from_payload (some ⟨[64]⟩)) 3 rngTest [9] [64, 1, 1, 4] [0]
    (by decide) (by decide) rfl (by decide) (by decide) (by decide) (by decide)
    (by decide) (by decide)

/-- C2: with a matching SA pair (same primitives, inverse cipher, MAC of
the right width, working RNG, ingress window accepting the next sequence
number), decrypting the datagram produced by encrypt returns SUCCESS,
yields the original payload bytes and the same next-header value, and the
successful encrypt advances the egress sequence cursor by exactly 1. -/
theorem encrypt_decrypt_roundtrip
    (cr : Crypter) (sg : Signer) (r : Nat → Option (List Nat))
    (rngD : Option (Nat → Option (List Nat))) (sendD cursor : Nat)
    (wE wD : ReplayWindow) (ip : IpPacket) (spi : Nat) (ivb ct tag : List Nat)
    (hbs : 0 < cr.block_size) (hbs255 : cr.block_size ≤ 255)
    (hcur : cursor < 4294967295)
    (hr : r cr.iv_size = some ivb) (hivlen : ivb.length = cr.iv_size)
    (hnib : ip.bytes.headD 0 / 16 = 4 ∨ ip.bytes.headD 0 / 16 = 6)
    (henc : cr.enc (esp_plaintext (esp_packet_create_from_payload (some ip))
      cr.block_size) ivb = some ct)
    (hctlen : ct.length = (esp_plaintext (esp_packet_create_from_payload (some ip))
      cr.block_size).length)
    (hdec : cr.dec ct ivb = some (esp_plaintext (esp_packet_create_from_payload (some ip))
      cr.block_size))
    (hsg : sg.sign (beBytes4 spi ++ beBytes4 (cursor + 1) ++ ivb ++ ct) = some tag)
    (htag : tag.length = sg.icv_size)
    (hwin : wD.check (cursor + 1) = true) :
    (encrypt ⟨cr, sg, some r, cursor, wE⟩
        (esp_packet_create_from_payload (some ip)) spi).1 = Status.SUCCESS ∧
    (encrypt ⟨cr, sg, some r, cursor, wE⟩
        (esp_packet_create_from_payload (some ip)) spi).2.2.send_seqno = cursor + 1 ∧
    (decrypt ⟨cr, sg, rngD, sendD, wD⟩
        (encrypt ⟨cr, sg, some r, cursor, wE⟩
          (esp_packet_create_from_payload (some ip)) spi).2.1).1 = Status.SUCCESS ∧
    get_payload (decrypt ⟨cr, sg, rngD, sendD, wD⟩
        (encrypt ⟨cr, sg, some r, cursor, wE⟩
          (esp_packet_create_from_payload (some ip)) spi).2.1).2.1 = some ip ∧
    get_next_header (decrypt ⟨cr, sg, rngD, sendD, wD⟩
        (encrypt ⟨cr, sg, some r, cursor, wE⟩
          (esp_packet_create_from_payload (some ip)) spi).2.1).2.1 =
      get_next_header (esp_packet_create_from_payload (some ip)) := by
  have hpay : esp_payload_bytes (esp_packet_create_from_payload (some ip)) = ip.bytes := rfl
  have hnhv : (esp_packet_create_from_payload (some ip)).next_header = 4 ∨
      (esp_packet_create_from_payload (some ip)).next_header = 41 := by
    show (if ip.version = 4 then 4 else 41) = 4 ∨ (if ip.version = 4 then 4 else 41) = 41
    by_cases h : ip.version = 4 <;> simp [h]
  have hnh256 : (esp_packet_create_from_payload (some ip)).next_header < 256 := by
    rcases hnhv with h | h <;> omega
  have hplle : esp_pad_length ip.bytes.length cr.block_size ≤ cr.block_size :=
    esp_pad_length_le ip.bytes.length cr.block_size
  have hplmod : esp_pad_length ip.bytes.length cr.block_size % 256 =
      esp_pad_length ip.bytes.length cr.block_size :=
    Nat.mod_eq_of_lt (by omega)
  have hplx : esp_plaintext (esp_packet_create_from_payload (some ip)) cr.block_size =
      ip.bytes ++ generate_padding (esp_pad_length ip.bytes.length cr.block_size) ++
        [esp_pad_length ip.bytes.length cr.block_size,
          (esp_packet_create_from_payload (some ip)).next_header] := by
    unfold esp_plaintext
    dsimp only
    rw [hpay, hplmod, Nat.mod_eq_of_lt hnh256]
  have hcreate : ip_packet_create ip.bytes = some ip := by
    cases hb : ip.bytes with
    | nil =>
      exfalso
      rw [hb] at hnib
      simp at hnib
    | cons b rest =>
      rw [hb] at hnib
      have hnib2 : b / 16 = 4 ∨ b / 16 = 6 := by simpa using hnib
      unfold ip_packet_create
      dsimp only
      rw [if_pos hnib2, ← hb]
  have hE := encrypt_success_eq ⟨cr, sg, some r, cursor, wE⟩
    (esp_packet_create_from_payload (some ip)) spi r ivb ct tag
    (by show cursor ≠ 4294967295; omega) rfl hr henc hsg
  rw [hE]
  dsimp only
  refine ⟨rfl, rfl, ?_, ?_, ?_⟩ <;>
  · have h8 : (beBytes4 spi ++ beBytes4 (cursor + 1)).length = 8 := by
      simp [length_beBytes4]
    have hmod : ct.length % cr.block_size = 0 := by
      rw [hctlen]
      exact esp_plaintext_mod _ _ hbs
    have hparse0 := parse_datagram_wellformed (beBytes4 spi ++ beBytes4 (cursor + 1))
      ivb ct tag cr.iv_size sg.icv_size cr.block_size h8 hivlen htag hmod
    have hseq : readBE32 (((beBytes4 spi ++ beBytes4 (cursor + 1)).drop 4).take 4) =
        cursor + 1 := by
      rw [List.drop_left' (length_beBytes4 spi), take_full _ (length_beBytes4 _)]
      exact readBE32_beBytes4 _ (by omega)
    rw [hseq] at hparse0
    have h8tk : (beBytes4 spi ++ beBytes4 (cursor + 1) ++ ivb ++ ct ++ tag).take 8 =
        beBytes4 spi ++ beBytes4 (cursor + 1) := by
      rw [take_append_of_le _ _ (by simp only [List.length_append, length_beBytes4]; omega),
        take_append_of_le _ _ (by simp only [List.length_append, length_beBytes4]; omega),
        take_append_of_le _ _ (by omega),
        take_full _ h8]
    have hD := decrypt_after_mac ⟨cr, sg, rngD, sendD, wD⟩
      { esp_packet_create_from_payload (some ip) with
          packet_data := beBytes4 spi ++ beBytes4 (cursor + 1) ++ ivb ++ ct ++ tag }
      (readBE32 ((beBytes4 spi ++ beBytes4 (cursor + 1)).take 4)) (cursor + 1)
      ivb ct tag hparse0 hwin (by rw [h8tk]; exact hsg)
    have hrp : remove_padding (esp_plaintext (esp_packet_create_from_payload (some ip))
        cr.block_size) = (some (ip, (esp_packet_create_from_payload (some ip)).next_header),
        PlainDisposition.retained) := by
      rw [hplx]
      exact remove_padding_wellformed ip.bytes _ _ ip hcreate
    rw [hD]
    simp [hdec, hrp, get_payload, get_next_header]

/-- C2 (witness): the round trip at a concrete SA pair (identity cipher,
block 4, IV 1, constant 1-byte MAC, constant RNG) and the 1-byte IPv4
payload `[64]` with SPI 3, starting from a fresh cursor and window. -/
theorem encrypt_decrypt_roundtrip_witness :
    (encrypt ⟨crTest, sgTest, some rngTest, 0, wTest⟩
        (esp_packet_create_from_payload (some ⟨[64]⟩)) 3).1 = Status.SUCCESS ∧
    (encrypt ⟨crTest, sgTest, some rngTest, 0, wTest⟩
        (esp_packet_create_from_payload (some ⟨[64]⟩)) 3).2.2.send_seqno = 0 + 1 ∧
    (decrypt ⟨crTest, sgTest, none, 0, wTest⟩
        (encrypt ⟨crTest, sgTest, some rngTest, 0, wTest⟩
          (esp_packet_create_from_payload (some ⟨[64]⟩)) 3).2.1).1 = Status.SUCCESS ∧
    get_payload (decrypt ⟨crTest, sgTest, none, 0, wTest⟩
        (encrypt ⟨crTest, sgTest, some rngTest, 0, wTest⟩
          (esp_packet_create_from_payload (some ⟨[64]⟩)) 3).2.1).2.1 =
      some ⟨[64]⟩ ∧
    get_next_header (decrypt ⟨crTest, sgTest, none, 0, wTest⟩
        (encrypt ⟨crTest, sgTest, some rngTest, 0, wTest⟩
          (esp_packet_create_from_payload (some ⟨[64]⟩)) 3).2.1).2.1 =
      get_next_header (esp_packet_create_from_payload (some ⟨[64]⟩)) :=
  encrypt_decrypt_roundtrip crTest sgTest rngTest none 0 0 wTest wTest
    ⟨[64]⟩ 3 [9] [64, 1, 1, 4] [0]
    (by decide) (by decide) (by decide) (by decide) (by decide) (by decide)
    (by decide) (by decide) (by decide) (by decide) (by decide) (by decide)
